import Mathlib

/-!
Verification of the CHIP-8 emulator and assembler (src/main.rs, src/assembler.rs).

The machine state and both core algorithms (the fetch-decode-execute cycle and
the two-pass assembler) are shallowly embedded below.  Machine integers are
modelled as `Nat` with explicit truncation (`% 256`, `% 65536`) where the Rust
code relies on fixed-width behaviour; Rust panics (array index out of bounds,
checked arithmetic overflow under debug assertions, explicit `panic!` calls)
are modelled as `Except` errors.  Strings are modelled as `List Char`, and the
Rust string primitives used by the assembler (`split`, `trim_start_matches`,
`trim_end_matches`, `find`, `from_str_radix`, zero-padding formatting) are
embedded one-to-one.
-/

/-- Interpret a Lean string literal as the list of its characters
(the representation used for all assembler-side text below). -/
def str (s : String) : List Char := s.data

/-- Pointwise update of a function representing a Rust array. -/
def upd {α : Type} (f : Nat → α) (i : Nat) (v : α) : Nat → α :=
  fun j => if j = i then v else f j

/-- A Rust panic reachable from the emulator core: an array index out of
bounds, or an arithmetic overflow caught by debug overflow checks. -/
inductive Fault
  | indexOutOfBounds
  | arithOverflow
deriving DecidableEq, Repr

theorem upd_same {α : Type} (f : Nat → α) (i : Nat) (v : α) : upd f i v i = v := by
  simp [upd]

theorem upd_other {α : Type} (f : Nat → α) (i j : Nat) (v : α) (h : j ≠ i) :
    upd f i v j = f j := by
  simp [upd, h]

/-- Generic left-to-right loop in the `Except` monad (the shape of every
`for` loop in the Rust sources that can hit a panic). -/
def loopM {σ β ε : Type} (f : σ → β → Except ε σ) : σ → List β → Except ε σ
  | s, [] => .ok s
  | s, b :: l =>
    match f s b with
    | .ok s1 => loopM f s1 l
    | .error e => .error e

/-- The `Chip8` struct of src/main.rs.  Arrays are total functions out of
`Nat`; the Rust bounds checks are made explicit at every dynamic access.
The audio mpsc channel is an external side-channel (a fire-and-forget
notification) and is not part of the observable machine state; the
`audio_is_playing` bookkeeping flag is kept. -/
structure Chip8 where
  display : Nat → Nat        -- [u8; 64 * 32], values 0/1
  memory : Nat → Nat         -- [u8; 4096]
  keys : Nat → Bool          -- [bool; 16]
  registers : Nat → Nat      -- [u8; 16], V0 to VF
  register_i : Nat           -- u16
  timer_sound : Nat          -- u8
  timer_delay : Nat          -- u8
  pc : Nat                   -- u16
  sp : Nat                   -- u16
  stack : Nat → Nat          -- [u16; 16]
  needs_clear : Bool
  hold_for_key : Option Nat
  audio_is_playing : Bool

/-- Read `chip8.memory[i]` with the Rust bounds check. -/
def readMem (c : Chip8) (i : Nat) : Except Fault Nat :=
  if i < 4096 then .ok (c.memory i) else .error .indexOutOfBounds

/-- Write `chip8.memory[i] = v` with the Rust bounds check. -/
def writeMem (c : Chip8) (i v : Nat) : Except Fault Chip8 :=
  if i < 4096 then .ok { c with memory := upd c.memory i v }
  else .error .indexOutOfBounds

/-- Opcode 00EE (RET): `pc = stack[sp]; sp -= 1`.  The stack read is bounds
checked; `sp -= 1` at `sp = 0` is a u16 subtraction overflow, a panic under
Rust's debug overflow checks.  (The source assigns `pc` before the
decrement; since a fault aborts the cycle, the two statements are flattened
into a single state update here.) -/
def execRET (c : Chip8) : Except Fault Chip8 :=
  if c.sp < 16 then
    if c.sp = 0 then .error .arithOverflow
    else .ok { c with pc := c.stack c.sp, sp := c.sp - 1 }
  else .error .indexOutOfBounds

/-- Opcode 2nnn (CALL): `sp += 1; stack[sp] = pc; pc = nnn`.  `sp += 1`
is a u16 addition (overflow checked), the stack write at the incremented
`sp` is bounds checked.  (As for RET, the source's sequential mutations are
flattened into a single state update, faults aborting the cycle.) -/
def execCALL (c : Chip8) (nnn : Nat) : Except Fault Chip8 :=
  if c.sp + 1 > 65535 then .error .arithOverflow
  else if c.sp + 1 < 16 then
    .ok { c with sp := c.sp + 1, stack := upd c.stack (c.sp + 1) c.pc, pc := nnn }
  else .error .indexOutOfBounds

/-- The 8xyk family.  Note the source's statement order: for ADD (k = 4) the
result is stored before the flag is written, while for SUB/SHR/SUBN/SHL the
flag is written first and the subsequent operand reads see the updated
register file.  For SHL (k = 14) the source divides by 2 (`registers[x] /= 2`)
even though its comment says `Vx SHL 1`; the embedding reproduces the
division. -/
def exec8 (c : Chip8) (x y k : Nat) : Except Fault Chip8 :=
  match k with
  | 0 => .ok { c with registers := upd c.registers x (c.registers y) }
  | 1 => .ok { c with registers := upd c.registers x (Nat.lor (c.registers x) (c.registers y)) }
  | 2 => .ok { c with registers := upd c.registers x (Nat.land (c.registers x) (c.registers y)) }
  | 3 => .ok { c with registers := upd c.registers x (Nat.xor (c.registers x) (c.registers y)) }
  | 4 =>
    let result := c.registers x + c.registers y
    let c := { c with registers := upd c.registers x (result % 256) }
    .ok { c with registers := upd c.registers 15 (if result > 255 then 1 else 0) }
  | 5 =>
    let c := { c with registers := upd c.registers 15 (if c.registers x > c.registers y then 1 else 0) }
    .ok { c with registers := upd c.registers x (c.registers x - c.registers y) }
  | 6 =>
    let c := { c with registers := upd c.registers 15 (Nat.land (c.registers x) 1) }
    .ok { c with registers := upd c.registers x (c.registers x / 2) }
  | 7 =>
    let c := { c with registers := upd c.registers 15 (if c.registers y > c.registers x then 1 else 0) }
    .ok { c with registers := upd c.registers x (c.registers y - c.registers x) }
  | 14 =>
    let c := { c with registers := upd c.registers 15 (if Nat.land (c.registers x) 128 = 128 then 1 else 0) }
    .ok { c with registers := upd c.registers x (c.registers x / 2) }
  | _ => .ok c

/-- One column of the Dxyn draw loop body.  The display index
`pos_y * 64 + pos_x` is at most 31 * 64 + 63 = 2047, always inside the
2048-entry display array, so no bounds check arises in the source. -/
def drawPixel (c : Chip8) (sprite_line start_x start_y line col : Nat) : Chip8 :=
  let pos_x := ((start_x % 64) + col) % 64
  let pos_y := ((start_y % 32) + line) % 32
  let px_index := pos_y * 64 + pos_x
  let sprite_column_px := if Nat.land ((sprite_line <<< col) % 256) 128 = 128 then 1 else 0
  let old_px := c.display px_index
  let new_px := Nat.xor old_px sprite_column_px
  let c := { c with display := upd c.display px_index new_px }
  if old_px = 1 ∧ new_px = 0 then { c with registers := upd c.registers 15 1 } else c

/-- Opcode Dxyn (DRW).  `register_i + line` is a u16 addition (overflow
checked), the sprite read is bounds checked.  `start_x`/`start_y` are read
once before the loop, exactly as in the source. -/
def execDRW (c : Chip8) (x y n : Nat) : Except Fault Chip8 :=
  let start_x := c.registers x
  let start_y := c.registers y
  loopM (fun c line =>
    if c.register_i + line > 65535 then .error .arithOverflow
    else
      match readMem c (c.register_i + line) with
      | .error e => .error e
      | .ok sprite_line =>
        .ok (List.foldl (fun c col => drawPixel c sprite_line start_x start_y line col)
              c (List.range 8)))
    c (List.range n)

/-- The Ex__ family (SKP/SKNP).  `keys[registers[x]]` is bounds checked:
a register value above 15 is an index panic in the source. -/
def execE (c : Chip8) (x kk : Nat) : Except Fault Chip8 :=
  match kk with
  | 0x9E =>
    if c.registers x < 16 then
      .ok (if c.keys (c.registers x) then { c with pc := c.pc + 2 } else c)
    else .error .indexOutOfBounds
  | 0xA1 =>
    if c.registers x < 16 then
      .ok (if c.keys (c.registers x) then c else { c with pc := c.pc + 2 })
    else .error .indexOutOfBounds
  | _ => .ok c

/-- Opcode Fx55 (LD [I], Vx): `for i in 0..=x { memory[register_i + i] = registers[i] }`. -/
def execFx55 (c : Chip8) (x : Nat) : Except Fault Chip8 :=
  loopM (fun c i => writeMem c (c.register_i + i) (c.registers i)) c (List.range (x + 1))

/-- Opcode Fx65 (LD Vx, [I]): `for i in 0..=x { registers[i] = memory[register_i + i] }`. -/
def execFx65 (c : Chip8) (x : Nat) : Except Fault Chip8 :=
  loopM (fun c i =>
    match readMem c (c.register_i + i) with
    | .ok v => .ok { c with registers := upd c.registers i v }
    | .error e => .error e) c (List.range (x + 1))

/-- The Fx__ family.  `register_i += Vx` and `Vx * 5` are u16/u8 arithmetic
(overflow checked); the BCD writes are bounds checked (a `register_i` passing
the first bounds check is at most 4095, so the u16 additions `+ 1`, `+ 2`
cannot overflow). -/
def execF (c : Chip8) (x kk : Nat) : Except Fault Chip8 :=
  match kk with
  | 0x07 => .ok { c with registers := upd c.registers x c.timer_delay }
  | 0x0A => .ok { c with hold_for_key := some x }
  | 0x15 => .ok { c with timer_delay := c.registers x }
  | 0x18 => .ok { c with timer_sound := c.registers x }
  | 0x1E =>
    if c.register_i + c.registers x > 65535 then .error .arithOverflow
    else .ok { c with register_i := c.register_i + c.registers x }
  | 0x29 =>
    if c.registers x * 5 > 255 then .error .arithOverflow
    else .ok { c with register_i := c.registers x * 5 }
  | 0x33 =>
    match writeMem c (c.register_i + 0) (c.registers x / 100) with
    | .error e => .error e
    | .ok c =>
      match writeMem c (c.register_i + 1) (c.registers x % 100 / 10) with
      | .error e => .error e
      | .ok c => writeMem c (c.register_i + 2) (c.registers x % 10)
  | 0x55 => execFx55 c x
  | 0x65 => execFx65 c x
  | _ => .ok c

/-- Dispatch of a fetched opcode (the `match opcode & 0xF000` of
`run_next_cpu_cycle`), after `pc` has already been advanced.  `randByte` is
the byte produced by `rand::random::<u8>()` for the Cxkk opcode.  The skip
opcodes' `pc += 2` cannot overflow u16 here because the fetch bounds check
left `pc ≤ 4097`. -/
def execOpcode (c : Chip8) (b1 b2 randByte : Nat) : Except Fault Chip8 :=
  let opcode := b1 * 256 + b2
  let nnn := opcode % 4096
  let n := opcode % 16
  let x := b1 % 16
  let y := b2 / 16
  let kk := opcode % 256
  match opcode / 4096 with
  | 0 =>
    if opcode = 0x00E0 then .ok { c with needs_clear := true }
    else if opcode = 0x00EE then execRET c
    else .ok c
  | 1 => .ok { c with pc := nnn }
  | 2 => execCALL c nnn
  | 3 => .ok (if c.registers x = kk then { c with pc := c.pc + 2 } else c)
  | 4 => .ok (if c.registers x ≠ kk then { c with pc := c.pc + 2 } else c)
  | 5 => .ok (if c.registers x = c.registers y then { c with pc := c.pc + 2 } else c)
  | 6 => .ok { c with registers := upd c.registers x kk }
  | 7 => .ok { c with registers := upd c.registers x ((c.registers x + kk) % 256) }
  | 8 => exec8 c x y n
  | 9 => .ok (if c.registers x ≠ c.registers y then { c with pc := c.pc + 2 } else c)
  | 10 => .ok { c with register_i := nnn }
  | 11 => .ok { c with pc := nnn + c.registers 0 }
  | 12 => .ok { c with registers := upd c.registers x (Nat.land randByte kk) }
  | 13 => execDRW c x y n
  | 14 => execE c x kk
  | 15 => execF c x kk
  | _ => .ok c

/-- Function `run_next_cpu_cycle`: fetch two bytes at `pc` (bounds checked), advance
`pc` by 2, then dispatch.  After a successful fetch `pc ≤ 4095`, so neither
`pc + 1` nor `pc += 2` can overflow u16. -/
def run_next_cpu_cycle (c : Chip8) (randByte : Nat) : Except Fault Chip8 :=
  match readMem c c.pc with
  | .error e => .error e
  | .ok b1 =>
    match readMem c (c.pc + 1) with
    | .error e => .error e
    | .ok b2 => execOpcode { c with pc := c.pc + 2 } b1 b2 randByte

/-- One iteration of the `for _i in 0..8` loop body inside `update`: run a
cycle when `pc < memory.len() - 2 = 4094`, update the audio bookkeeping
(the channel send itself is an external effect), then handle a pending
clear request. -/
def updateTick (c : Chip8) (randByte : Nat) : Except Fault Chip8 :=
  match (if c.pc < 4094 then run_next_cpu_cycle c randByte else .ok c) with
  | .error e => .error e
  | .ok c =>
    let c :=
      if ¬c.audio_is_playing ∧ c.timer_sound > 0 then { c with audio_is_playing := true }
      else if c.audio_is_playing ∧ c.timer_sound = 0 then { c with audio_is_playing := false }
      else c
    .ok (if c.needs_clear then { c with display := fun _ => 0, needs_clear := false } else c)

/-- The nannou `update` callback: decrement both timers (floored at 0), and
only when `hold_for_key` is `None` run up to 8 cpu cycles.  The
`hold_for_key` test happens once, before the loop, exactly as in the
source.  `rands` supplies the random byte for each of the 8 loop
iterations. -/
def update (c : Chip8) (rands : Nat → Nat) : Except Fault Chip8 :=
  let c := if c.timer_delay > 0 then { c with timer_delay := c.timer_delay - 1 } else c
  let c := if c.timer_sound > 0 then { c with timer_sound := c.timer_sound - 1 } else c
  if c.hold_for_key = none then
    loopM (fun c i => updateTick c (rands i)) c (List.range 8)
  else .ok c

/-- The nannou key codes that `key_to_chip8_key_index` maps (all other keys
collapse to `other`). -/
inductive Key
  | key1 | key2 | key3 | key4
  | q | w | e | r
  | a | s | d | f
  | z | x | c | v
  | other
deriving DecidableEq, Repr

/-- Function `key_to_chip8_key_index` of src/main.rs. -/
def key_to_chip8_key_index (key : Key) : Option Nat :=
  match key with
  | .key1 => some 0x1
  | .key2 => some 0x2
  | .key3 => some 0x3
  | .key4 => some 0xC
  | .q => some 0x4
  | .w => some 0x5
  | .e => some 0x6
  | .r => some 0xD
  | .a => some 0x7
  | .s => some 0x8
  | .d => some 0x9
  | .f => some 0xE
  | .z => some 0xA
  | .x => some 0x0
  | .c => some 0xB
  | .v => some 0xF
  | .other => none

/-- The `key_pressed` callback of src/main.rs: when a mapped key arrives and
a key-wait is active, write the key index into the designated register, and
mark the key down.  (The source does not reset `hold_for_key` here.) -/
def key_pressed (c : Chip8) (key : Key) : Chip8 :=
  match key_to_chip8_key_index key with
  | some key_index =>
    let c :=
      match c.hold_for_key with
      | some hold_for_key => { c with registers := upd c.registers hold_for_key key_index }
      | none => c
    { c with keys := upd c.keys key_index true }
  | none => c

/-- The `key_released` callback of src/main.rs. -/
def key_released (c : Chip8) (key : Key) : Chip8 :=
  match key_to_chip8_key_index key with
  | some key_index => { c with keys := upd c.keys key_index false }
  | none => c

/-! ## The assembler (src/assembler.rs) -/

/-- Pattern strip: when the pattern `p` is a leading piece of `s`, the
remainder of `s`; otherwise `none`. -/
def stripPre : List Char → List Char → Option (List Char)
  | [], s => some s
  | _ :: _, [] => none
  | p :: ps, ch :: cs => if ch = p then stripPre ps cs else none

/-- Fuel-driven worker for `trimStartMatches` (each successful strip of a
nonempty pattern consumes at least one character, so `s.length + 1` fuel
always suffices). -/
def trimStartGo (p : List Char) : Nat → List Char → List Char
  | 0, s => s
  | fuel + 1, s =>
    match stripPre p s with
    | some rest => if p.isEmpty then s else trimStartGo p fuel rest
    | none => s

/-- Rust `str::trim_start_matches(pat)`: repeatedly remove the pattern from
the front. -/
def trimStartMatches (p s : List Char) : List Char :=
  trimStartGo p (s.length + 1) s

/-- Rust `str::trim_end_matches(pat)`: repeatedly remove the pattern from
the end. -/
def trimEndMatches (p s : List Char) : List Char :=
  (trimStartMatches p.reverse s.reverse).reverse

/-- Rust `str::split(" ")`: split at every single space; consecutive
separators produce empty items, and the empty string yields one empty
item. -/
def splitSp : List Char → List (List Char)
  | [] => [[]]
  | ch :: rest =>
    let r := splitSp rest
    if ch = ' ' then [] :: r
    else
      match r with
      | t :: ts => (ch :: t) :: ts
      | [] => [[ch]]

/-- Rust `str::starts_with(char)`. -/
def startsWithChar (s : List Char) (ch : Char) : Bool :=
  match s with
  | c0 :: _ => c0 = ch
  | [] => false

/-- Rust `line.find(';')` followed by `&line[..i]`: everything before the first
semicolon (the whole line when there is none). -/
def stripComment (s : List Char) : List Char :=
  s.takeWhile (fun ch => ch ≠ ';')

/-- Value of one ASCII hex digit (both cases), as accepted by
`u16::from_str_radix`. -/
def hexDigitVal (ch : Char) : Option Nat :=
  if '0' ≤ ch ∧ ch ≤ '9' then some (ch.toNat - '0'.toNat)
  else if 'a' ≤ ch ∧ ch ≤ 'f' then some (ch.toNat - 'a'.toNat + 10)
  else if 'A' ≤ ch ∧ ch ≤ 'F' then some (ch.toNat - 'A'.toNat + 10)
  else none

/-- Rust `u16::from_str_radix(s, base)`: an optional leading `+`, then a
nonempty run of digits of the base, rejecting values beyond `u16::MAX`. -/
def fromStrRadix (s : List Char) (base : Nat) : Option Nat :=
  let s := match s with
           | '+' :: rest => rest
           | _ => s
  if s.isEmpty then none
  else
    match s.foldl (fun acc ch =>
      match acc, hexDigitVal ch with
      | some a, some d => if d < base then some (a * base + d) else none
      | _, _ => none) (some 0) with
    | some v => if v ≤ 65535 then some v else none
    | none => none

/-- Hex digit character (lowercase), as produced by Rust's `{:x}`
formatting. -/
def hexChar (d : Nat) : Char :=
  if d < 10 then Char.ofNat ('0'.toNat + d) else Char.ofNat ('a'.toNat + (d - 10))

/-- Fuel-driven worker for `toHex`. -/
def toHexGo : Nat → Nat → List Char → List Char
  | 0, _, acc => acc
  | fuel + 1, n, acc =>
    if n = 0 then acc else toHexGo fuel (n / 16) (hexChar (n % 16) :: acc)

/-- Rust `format!("{:x}", n)`: lowercase hexadecimal, no leading zeros
(`"0"` for zero).  `format!("{:#03x}", n)` is `"0x"` followed by exactly
this (the width 3 counts the `0x` prefix, so the zero padding never
engages), hence `format!("{:#03x}", n).trim_start_matches("0x") = toHex n`. -/
def toHex (n : Nat) : List Char :=
  if n = 0 then ['0'] else toHexGo (n + 1) n []

/-- Rust `format!("{:0>w}", s)` for strings: left-pad with `'0'` up to
width `w`. -/
def padLeftZero (w : Nat) (s : List Char) : List Char :=
  List.replicate (w - s.length) '0' ++ s

/-- The `labels: HashMap<String, u16>` of the assembler, as an association
list with insert-overwrites semantics. -/
def Labels : Type := List (List Char × Nat)

/-- Insert `labels.insert(k, v)` (redefinition overwrites). -/
def labelsInsert (m : Labels) (k : List Char) (v : Nat) : Labels :=
  match m with
  | [] => [(k, v)]
  | (k0, v0) :: rest => if k0 = k then (k, v) :: rest else (k0, v0) :: labelsInsert rest k v

/-- Lookup `labels.get(k)`. -/
def labelsGet (m : Labels) (k : List Char) : Option Nat :=
  match m with
  | [] => none
  | (k0, v0) :: rest => if k0 = k then some v0 else labelsGet rest k

/-- Enum `AddressError` of src/assembler.rs. -/
inductive AddressError
  | unknownLabel
deriving DecidableEq, Repr

/-- Function `get_address` of src/assembler.rs: a `0x` literal is zero-padded to
three digits; otherwise the label table is consulted, and its value is
formatted as `{:#03x}` with the `0x` prefix stripped (see `toHex`). -/
def get_address (text : List Char) (labels : Labels) : Except AddressError (List Char) :=
  if (stripPre (str "0x") text).isSome then
    .ok (padLeftZero 3 (trimStartMatches (str "0x") text))
  else
    match labelsGet labels text with
    | some label_value => .ok (toHex label_value)
    | none => .error .unknownLabel

/-- Function `get_hex_str` of src/assembler.rs: a `0x` literal is passed through
(prefix stripped); a decimal numeral is reformatted as `{:#x}` with the
prefix stripped; anything else is `None`. -/
def get_hex_str (text : List Char) : Option (List Char) :=
  if (stripPre (str "0x") text).isSome then
    some (trimStartMatches (str "0x") text)
  else
    match fromStrRadix text 10 with
    | some n => some (toHex n)
    | none => none

/-- Outcome of one `parse_asm_line` call.  `ok`/`noOpcode`/`incomplete`
mirror `Result<u16, OpcodeError>`; `panicked` is a Rust panic inside the
call (the "Wrong opcode format" `panic!`, or a slice index out of
bounds). -/
inductive ParseRes
  | ok (opcode : Nat)
  | noOpcode
  | incomplete
  | panicked
deriving DecidableEq, Repr

/-- Function `parse_asm_line` of src/assembler.rs.  The label-table parameter is
`&mut`, so the (possibly extended) table is returned alongside the
result.  The `&&` chains of the source short-circuit, so a `parts[2]`
access inside a condition is only reached when the preceding conjunct
holds; the `match parts.get? _` wrappers below reproduce exactly the
accesses the source performs (a `none` is the source's index panic). -/
def parse_asm_line (line : List Char) (labels : Labels) (memory_index : Nat) :
    Labels × ParseRes :=
  -- Strip comments
  let line := stripComment line
  -- Return early for empty lines
  if line.isEmpty then (labels, .noOpcode)
  else
    let parts := splitSp (trimEndMatches [' '] (trimStartMatches [' '] line))
    -- `splitSp` never returns an empty list, so `parts[0]` cannot panic.
    let command := parts.headD []
    let x := if parts.length ≥ 2 ∧ startsWithChar (parts.getD 1 []) 'V' then
               trimEndMatches [','] (trimStartMatches ['V'] (parts.getD 1 []))
             else []
    let y := if parts.length ≥ 3 ∧ startsWithChar (parts.getD 2 []) 'V' then
               trimEndMatches [','] (trimStartMatches ['V'] (parts.getD 2 []))
             else []
    let kk := if parts.length ≥ 3 ∧ y.isEmpty then
                match get_hex_str (parts.getD 2 []) with
                | some s => padLeftZero 2 s
                | none => []
              else []
    -- The nnn field can early-return `Err(OpcodeError::Incomplete)`.
    let nnnRes : Except Unit (List Char) :=
      if x.isEmpty ∧ y.isEmpty ∧ parts.length = 2 then
        match get_address (parts.getD 1 []) labels with
        | .ok v => .ok v
        | .error _ => .error ()
      else .ok []
    match nnnRes with
    | .error _ => (labels, .incomplete)
    | .ok nnn =>
      let n := if parts.length ≥ 4 then
                 match get_hex_str (parts.getD 3 []) with
                 | some s => s
                 | none => []
               else []
      -- Label
      if command.getLastD ' ' = ':' then
        (labelsInsert labels command.dropLast memory_index, .noOpcode)
      else
        let arm : Except ParseRes (Option (List Char)) :=
          if command = str "CLS" then .ok (some (str "00E0"))
          else if command = str "RET" then .ok (some (str "00EE"))
          else if command = str "SYS" then .ok (some ('0' :: nnn))
          else if command = str "JP" then
            if parts.length = 2 then .ok (some ('1' :: nnn))
            else
              match parts.get? 2 with
              | none => .error .panicked
              | some p2 =>
                match get_address p2 labels with
                | .ok addr => .ok (some ('B' :: padLeftZero 2 addr))
                | .error _ => .error .incomplete
          else if command = str "CALL" then .ok (some ('2' :: nnn))
          else if command = str "SE" then
            .ok (some (if y.isEmpty then '3' :: (x ++ kk) else '5' :: (x ++ y ++ str "0")))
          else if command = str "SNE" then
            .ok (some (if y.isEmpty then '4' :: (x ++ kk) else '9' :: (x ++ y ++ str "0")))
          else if command = str "LD" then
            match parts.get? 1 with
            | none => .error .panicked   -- "LD" with no operand: parts[1] panics
            | some p1 =>
              if ¬x.isEmpty ∧ ¬y.isEmpty then .ok (some ('8' :: (x ++ y ++ str "0")))
              else if p1 = str "I," ∧ ¬y.isEmpty then .ok (some ('F' :: (y ++ str "55")))
              else if p1 = str "I," then
                match parts.get? 2 with
                | none => .error .panicked
                | some p2 =>
                  match get_address p2 labels with
                  | .ok addr => .ok (some ('A' :: addr))
                  | .error _ => .error .incomplete
              else if ¬x.isEmpty then
                -- the remaining conditions of the source's chain evaluate
                -- parts[2] (short-circuit reached since x is nonempty)
                match parts.get? 2 with
                | none => .error .panicked
                | some p2 =>
                  if p2 = str "DT" then .ok (some ('F' :: (x ++ str "07")))
                  else if p2 = str "K" then .ok (some ('F' :: (x ++ str "0A")))
                  else if p1 = str "DT," ∧ ¬y.isEmpty then .ok (some ('F' :: (y ++ str "15")))
                  else if p1 = str "ST," ∧ ¬y.isEmpty then .ok (some ('F' :: (y ++ str "18")))
                  else if p1 = str "F," ∧ ¬y.isEmpty then .ok (some ('F' :: (y ++ str "29")))
                  else if p1 = str "B," ∧ ¬y.isEmpty then .ok (some ('F' :: (y ++ str "33")))
                  else if p2 = str "I" then .ok (some ('F' :: (x ++ str "65")))
                  else if ¬kk.isEmpty then .ok (some ('6' :: (x ++ kk)))
                  else .ok none
              else
                -- x empty: the conditions guarded by `!x.is_empty()`
                -- short-circuit without touching parts[2]
                if p1 = str "DT," ∧ ¬y.isEmpty then .ok (some ('F' :: (y ++ str "15")))
                else if p1 = str "ST," ∧ ¬y.isEmpty then .ok (some ('F' :: (y ++ str "18")))
                else if p1 = str "F," ∧ ¬y.isEmpty then .ok (some ('F' :: (y ++ str "29")))
                else if p1 = str "B," ∧ ¬y.isEmpty then .ok (some ('F' :: (y ++ str "33")))
                else .ok none
          else if command = str "ADD" then
            .ok (some (if y.isEmpty then '7' :: (x ++ kk)
                       else if x.isEmpty then 'F' :: (y ++ str "1E")
                       else '8' :: (x ++ y ++ str "4")))
          else if command = str "OR" then .ok (some ('8' :: (x ++ y ++ str "1")))
          else if command = str "AND" then .ok (some ('8' :: (x ++ y ++ str "2")))
          else if command = str "XOR" then .ok (some ('8' :: (x ++ y ++ str "3")))
          else if command = str "SUB" then .ok (some ('8' :: (x ++ y ++ str "5")))
          else if command = str "SHR" then
            .ok (some (if y.isEmpty then '8' :: (x ++ str "06") else '8' :: (x ++ y ++ str "6")))
          else if command = str "SUBN" then .ok (some ('8' :: (x ++ y ++ str "7")))
          else if command = str "SHL" then
            .ok (some (if y.isEmpty then '8' :: (x ++ str "0E") else '8' :: (x ++ y ++ str "E")))
          else if command = str "RND" then .ok (some ('C' :: (x ++ kk)))
          else if command = str "DRW" then .ok (some ('D' :: (x ++ y ++ n)))
          else if command = str "SKP" then .ok (some ('E' :: (x ++ str "9E")))
          else if command = str "SKNP" then .ok (some ('E' :: (x ++ str "A1")))
          else .ok none
        match arm with
        | .error r => (labels, r)
        | .ok none => (labels, .noOpcode)
        | .ok (some opcode_str) =>
          match fromStrRadix opcode_str 16 with
          | some opcode => (labels, .ok opcode)
          | none => (labels, .panicked)   -- the "Wrong opcode format" panic

/-- One record of the assembler's first pass (`struct AsmLine`). -/
structure AsmLine where
  line : List Char
  opcode : Option Nat
  memory_position : Nat

/-- A fatal outcome of `assemble`: a panic inside `parse_asm_line`, or the
second pass's own `panic!("Invalid asm line: ...")`. -/
inductive AsmErr
  | panicked
  | invalidAsmLine
deriving DecidableEq, Repr

/-- Pass 1 of `assemble`: every source line is recorded (with its parsed
opcode when parsing succeeded), and `memory_position` advances by 2 for
every line, successful or not — exactly as in the source.  The final
label table, position counter and line records are returned. -/
def assemblePass1 (lines : List (List Char)) :
    Except AsmErr (Labels × Nat × List AsmLine) :=
  loopM (fun st line =>
    match st with
    | (labels, memory_position, acc) =>
      match parse_asm_line line labels memory_position with
      | (labels', ParseRes.ok opcode) =>
        .ok (labels', memory_position + 2, acc ++ [⟨line, some opcode, memory_position⟩])
      | (labels', ParseRes.noOpcode) =>
        .ok (labels', memory_position + 2, acc ++ [⟨line, none, memory_position⟩])
      | (labels', ParseRes.incomplete) =>
        .ok (labels', memory_position + 2, acc ++ [⟨line, none, memory_position⟩])
      | (_, ParseRes.panicked) => .error .panicked)
    (([], 0x200, []) : Labels × Nat × List AsmLine) lines

/-- Pass 2 of `assemble`: lines without an opcode are re-parsed against the
completed label table; a line that still fails is the source's
`panic!("Invalid asm line: ...")`.  Each resolved opcode contributes its
two big-endian bytes. -/
def assemblePass2 (labels : Labels) (asm_lines : List AsmLine) :
    Except AsmErr (List Nat) :=
  match loopM (fun st al =>
    match st with
    | (labels, out) =>
      match al.opcode with
      | some opcode => .ok (labels, out ++ [opcode / 256, opcode % 256])
      | none =>
        match parse_asm_line al.line labels al.memory_position with
        | (labels', ParseRes.ok opcode) => .ok (labels', out ++ [opcode / 256, opcode % 256])
        | (_, ParseRes.panicked) => .error AsmErr.panicked
        | (_, _) => .error AsmErr.invalidAsmLine)
    ((labels, []) : Labels × List Nat) asm_lines with
  | .ok st => .ok st.2
  | .error e => .error e

/-- Function `assemble` of src/assembler.rs, over the list of source lines (the file
reading itself is an external collaborator). -/
def assemble (lines : List (List Char)) : Except AsmErr (List Nat) :=
  match assemblePass1 lines with
  | .ok (labels, _, asm_lines) => assemblePass2 labels asm_lines
  | .error e => .error e

/-! ## Concrete machine states used by the claims -/

/-- A baseline machine state: the memory image produced by `model` before
any program is loaded, with everything zeroed (font data is irrelevant to
the claims below). -/
def chipBase : Chip8 :=
  { display := fun _ => 0
    memory := fun _ => 0
    keys := fun _ => false
    registers := fun _ => 0
    register_i := 0
    timer_sound := 0
    timer_delay := 0
    pc := 0x200
    sp := 0
    stack := fun _ => 0
    needs_clear := false
    hold_for_key := none
    audio_is_playing := false }

/-- State for the draw claim: an all-zero display, `VF = 1` beforehand, the
opcode `DRW V0, V0, 1` (0xD001) at `pc = 0x200`, and a fully set sprite row
`0xFF` at `I = 0x300` — a draw in which every XOR turns a pixel from 0 to 1,
so no 1-to-0 transition can occur. -/
def c1_chip : Chip8 :=
  { chipBase with
    memory := fun i =>
      if i = 0x200 then 0xD0 else if i = 0x201 then 0x01 else
      if i = 0x300 then 0xFF else 0
    registers := fun i => if i = 15 then 1 else 0
    register_i := 0x300 }

/-- State for the key-wait claim: the opcode `LD V0, K` (0xF00A) at
`pc = 0x200`, everything else zero. -/
def c2_chip : Chip8 :=
  { chipBase with
    memory := fun i => if i = 0x200 then 0xF0 else if i = 0x201 then 0x0A else 0 }

/-- The (irrelevant) random bytes fed to `update`'s cycles. -/
def c2_rands : Nat → Nat := fun _ => 0

/-- State for the SHL claim: the opcode `SHL V0` (0x800E) at `pc = 0x200`
and `V0 = 0x81` (high bit set, low bit set). -/
def c5_chip : Chip8 :=
  { chipBase with
    memory := fun i => if i = 0x200 then 0x80 else if i = 0x201 then 0x0E else 0
    registers := fun i => if i = 0 then 0x81 else 0 }

/-- State for the SUB counterexample: `V0 = 5`, `VF = 10`. -/
def c6_chip : Chip8 :=
  { chipBase with registers := fun i => if i = 0 then 5 else if i = 15 then 10 else 0 }

/-- State witnessing the amended SUB/SUBN claim: `V1 = 7`, `V2 = 9`. -/
def c6_wchip : Chip8 :=
  { chipBase with registers := fun i => if i = 1 then 7 else if i = 2 then 9 else 0 }

/-- State for the flag-destination counterexample: `VF = 10`, `V0 = 3`. -/
def c10_chip : Chip8 :=
  { chipBase with registers := fun i => if i = 15 then 10 else if i = 0 then 3 else 0 }

/-- State witnessing the block-transfer claim: `I = 0x300`, `Vi = i + 10`,
memory filled with 7. -/
def c8_wchip : Chip8 :=
  { chipBase with
    memory := fun _ => 7
    registers := fun i => i + 10
    register_i := 0x300 }

/-- State witnessing the sp-invariant part of the stack claim: the baseline
state (its fetch reads opcode 0x0000, a SYS no-op). -/
def c7_wchip : Chip8 := chipBase

/-! ## Claim theorems -/

/-- C1: the claim requires `DRW` to reset register 0xF to 0 after a draw
with no 1-to-0 transition.  The source only ever sets `registers[0xF] = 1`
on a collision and never writes 0 (contradicting its own comment, "If this
causes any pixels to be erased, VF is set to 1, otherwise it is set to 0").
Evaluating the code at the failing input: the display starts all zero (so
no XOR can erase a pixel), `VF = 1` beforehand, and after the draw the
sprite's pixels are on and `VF` is still 1 instead of 0. -/
theorem c1_drw_never_clears_vf :
    c1_chip.display = (fun _ => 0) ∧
    (run_next_cpu_cycle c1_chip 0).map
        (fun c => (c.registers 15, c.display 0, c.display 7, c.display 8)) =
      .ok (1, 1, 1, 0) := by
  exact ⟨rfl, rfl⟩

/-- C2: executing `LD V0, K` does enter the key-wait state and later
`update` calls leave `pc` unchanged, and a key press writes the key index
into `V0` — but `key_pressed` never resets `hold_for_key`, so the machine
never returns to `Running` and `pc` stays frozen even after the key press
(the claim's "instruction advancement resumes" fails).  The four conjuncts
evaluate the code through the scenario: (1) after one `update` the machine
is waiting on register 0 with `pc = 0x210`; (2) a further `update` leaves
`pc` unchanged; (3) pressing the `W` key (CHIP-8 key 5) stores 5 in `V0`
and marks the key down but leaves `hold_for_key` set; (4) an `update` after
the key press still leaves `pc` at 0x210. -/
theorem c2_keywait_never_resumes :
    (update c2_chip c2_rands).map (fun c => (c.hold_for_key, c.pc)) = .ok (some 0, 0x210) ∧
    ((update c2_chip c2_rands).bind (fun c => update c c2_rands)).map (fun c => c.pc) =
      .ok 0x210 ∧
    ((update c2_chip c2_rands).map (fun c => key_pressed c Key.w)).map
        (fun c => (c.registers 0, c.keys 5, c.hold_for_key)) = .ok (5, true, some 0) ∧
    (((update c2_chip c2_rands).map (fun c => key_pressed c Key.w)).bind
        (fun c => update c c2_rands)).map (fun c => c.pc) = .ok 0x210 := by
  exact ⟨rfl, rfl, rfl, rfl⟩

/-- C3: the claim requires assembly of an empty or comment-only line to
succeed with no output bytes.  In the source, pass 1 stores such a line as
unresolved (and advances the position counter), and pass 2 re-parses it,
gets `NoOpcode` again, and hits `panic!("Invalid asm line: ...")` — a fatal
error.  Evaluating the code: a single comment-only line, and a single empty
line, each abort assembly. -/
theorem c3_comment_line_is_fatal :
    assemble [str ";LD VA, 0x2"] = .error AsmErr.invalidAsmLine ∧
    assemble [[]] = .error AsmErr.invalidAsmLine := by
  exact ⟨rfl, rfl⟩

/-- C4: the claim requires a label line to share the memory position of the
following instruction and the program `JP label / label: / CLS` to
assemble.  In the source, pass 1 advances `memory_position` by 2 for every
line including label lines — so `label` is recorded at 0x202 while the
following `CLS` is assigned 0x204 — and pass 2 panics on the label line
(`parse_asm_line` returns `NoOpcode` for it again).  Evaluating the code:
pass 1 records label 0x202 and line positions 0x200/0x202/0x204, and
`assemble` aborts. -/
theorem c4_label_line_consumes_slot_and_is_fatal :
    (assemblePass1 [str "JP label", str "label:", str "CLS"]).map
        (fun st => (labelsGet st.1 (str "label"),
                    st.2.2.map (fun al => al.memory_position))) =
      .ok (some 0x202, [0x200, 0x202, 0x204]) ∧
    assemble [str "JP label", str "label:", str "CLS"] = .error AsmErr.invalidAsmLine := by
  exact ⟨rfl, rfl⟩

/-- C5: the claim (and the source's own comment, "Set Vx = Vx SHL 1")
requires `SHL Vx` to store `(Vx * 2) mod 256`.  The source captures the
high bit into `VF` correctly but then executes `registers[x] /= 2` — a
division.  Evaluating the code at the failing input `V0 = 0x81`: `VF = 1`
(high bit, as claimed) but `V0` becomes 0x40, not `(0x81 * 2) % 256 =
0x02`. -/
theorem c5_shl_divides_instead_of_doubling :
    (run_next_cpu_cycle c5_chip 0).map (fun c => (c.registers 0, c.registers 15)) =
      .ok (0x40, 1) ∧ (0x40 : Nat) ≠ (0x81 * 2) % 256 := by
  exact ⟨rfl, by decide⟩

/-- C9: assembling each of the five documented single lines yields its
literal 16-bit opcode — both at the `parse_asm_line` level and through the
full two-pass `assemble` (as the two big-endian bytes of that value). -/
theorem c9_opcode_table_literals :
    (parse_asm_line (str "SE V5, 0xFE") [] 0x200).2 = ParseRes.ok 0x35FE ∧
    (parse_asm_line (str "SHR V1") [] 0x200).2 = ParseRes.ok 0x8106 ∧
    (parse_asm_line (str "SHR V1, VC") [] 0x200).2 = ParseRes.ok 0x81C6 ∧
    (parse_asm_line (str "LD I, VD") [] 0x200).2 = ParseRes.ok 0xFD55 ∧
    (parse_asm_line (str "DRW V5, VF, 0xC") [] 0x200).2 = ParseRes.ok 0xD5FC ∧
    assemble [str "SE V5, 0xFE"] = .ok [0x35, 0xFE] ∧
    assemble [str "SHR V1"] = .ok [0x81, 0x06] ∧
    assemble [str "SHR V1, VC"] = .ok [0x81, 0xC6] ∧
    assemble [str "LD I, VD"] = .ok [0xFD, 0x55] ∧
    assemble [str "DRW V5, VF, 0xC"] = .ok [0xD5, 0xFC] := by
  exact ⟨rfl, rfl, rfl, rfl, rfl, rfl, rfl, rfl, rfl, rfl⟩

/-- C6 counterexample: with `V0 = 5` and `VF = 10`, the claim says
`SUB V0, VF` stores `5 - 10` saturated, i.e. 0, into `V0`.  The code first
writes the borrow flag (0) into `VF` and only then reads the operands, so
it computes `5 - 0` and stores 5. -/
theorem c6_sub_vf_operand_counterexample :
    (exec8 c6_chip 0 15 5).map (fun c => c.registers 0) = .ok 5 ∧ (5 : Nat) ≠ 5 - 10 := by
  exact ⟨rfl, by decide⟩

/-- C10 counterexample: with `VF = 10` and `V0 = 3`, the claim says
`SUB VF, V0` leaves `VF` holding the saturated difference `10 - 3 = 7`.
The code's subtraction reads `registers[0xF]` after the flag write, so it
computes `1 - 3` saturated and leaves 0. -/
theorem c10_sub_flag_destination_counterexample :
    (exec8 c10_chip 15 0 5).map (fun c => c.registers 15) = .ok 0 ∧ (0 : Nat) ≠ 10 - 3 := by
  exact ⟨rfl, by decide⟩

/-- C6 amended: for destination and source registers other than `VF`
(whose use as an operand collides with the flag write, see the
counterexample), `SUB Vx, Vy` sets `VF` to 1 iff `Vx > Vy` and stores
`Vx - Vy` saturated at 0 (`Nat` subtraction never wraps), `SUBN` is the
symmetric form, and equal operand values give flag 0 and result 0. -/
theorem c6_sub_subn_borrow_semantics (c : Chip8) (x y : Nat)
    (hx : x ≠ 15) (hy : y ≠ 15) :
    (exec8 c x y 5).map (fun c' => (c'.registers 15, c'.registers x)) =
      .ok ((if c.registers x > c.registers y then 1 else 0),
           c.registers x - c.registers y) ∧
    (exec8 c x y 7).map (fun c' => (c'.registers 15, c'.registers x)) =
      .ok ((if c.registers y > c.registers x then 1 else 0),
           c.registers y - c.registers x) ∧
    (c.registers x = c.registers y →
      (exec8 c x y 5).map (fun c' => (c'.registers 15, c'.registers x)) = .ok (0, 0)) := by
  refine ⟨?_, ?_, ?_⟩
  · simp [exec8, Except.map, upd, hx, hy, Ne.symm hx]
  · simp [exec8, Except.map, upd, hx, hy, Ne.symm hx]
  · intro h
    simp [exec8, Except.map, upd, hx, hy, Ne.symm hx, h]

/-- Closed witness for `c6_sub_subn_borrow_semantics` at `x = 1`, `y = 2`
on the state `c6_wchip` (`V1 = 7`, `V2 = 9`). -/
theorem c6_sub_subn_borrow_semantics_witness :
    (1 : Nat) ≠ 15 ∧ (2 : Nat) ≠ 15 ∧
    ((exec8 c6_wchip 1 2 5).map (fun c' => (c'.registers 15, c'.registers 1)) =
        .ok ((if c6_wchip.registers 1 > c6_wchip.registers 2 then 1 else 0),
             c6_wchip.registers 1 - c6_wchip.registers 2) ∧
      (exec8 c6_wchip 1 2 7).map (fun c' => (c'.registers 15, c'.registers 1)) =
        .ok ((if c6_wchip.registers 2 > c6_wchip.registers 1 then 1 else 0),
             c6_wchip.registers 2 - c6_wchip.registers 1) ∧
      (c6_wchip.registers 1 = c6_wchip.registers 2 →
        (exec8 c6_wchip 1 2 5).map (fun c' => (c'.registers 15, c'.registers 1)) =
          .ok (0, 0))) :=
  ⟨by decide, by decide, c6_sub_subn_borrow_semantics c6_wchip 1 2 (by decide) (by decide)⟩

/-- C10 amended: with destination register `0xF`, `ADD Vx, Vy` leaves
register 0xF holding the carry flag computed from the original operand
values (the stored sum is overwritten, since the flag write follows the
result store), while `SUB Vx, Vy` leaves register 0xF holding the
just-written borrow flag minus `Vy`, saturated at 0 — not the saturated
difference of the original operands — because the result store follows
the flag write and its subtraction reads the freshly written flag in
place of `Vx`. -/
theorem c10_flag_register_destination (c : Chip8) (y : Nat) :
    (exec8 c 15 y 4).map (fun c' => c'.registers 15) =
      .ok (if c.registers 15 + c.registers y > 255 then 1 else 0) ∧
    (exec8 c 15 y 5).map (fun c' => c'.registers 15) =
      .ok ((if c.registers 15 > c.registers y then 1 else 0) - c.registers y) := by
  constructor
  · simp [exec8, Except.map, upd]
  · by_cases hy : y = 15
    · subst hy
      simp [exec8, Except.map, upd]
    · simp [exec8, Except.map, upd, hy, Ne.symm hy]

/-- Characterisation of the Fx55 store loop over an arbitrary duplicate-free
index list whose target addresses are all in bounds: the loop succeeds,
`register_i` and the register file are untouched, each targeted cell holds
the corresponding register, and every other cell is unchanged. -/
theorem storeLoop_props :
    ∀ (l : List Nat) (c : Chip8),
      (∀ i ∈ l, c.register_i + i < 4096) → l.Nodup →
      ∃ c', loopM (fun c i => writeMem c (c.register_i + i) (c.registers i)) c l = .ok c' ∧
        c'.register_i = c.register_i ∧ c'.registers = c.registers ∧
        c'.pc = c.pc ∧
        (∀ i ∈ l, c'.memory (c.register_i + i) = c.registers i) ∧
        (∀ j, (∀ i ∈ l, j ≠ c.register_i + i) → c'.memory j = c.memory j) := by
  intro l
  induction l with
  | nil =>
    intro c _ _
    exact ⟨c, rfl, rfl, rfl, rfl, by simp, fun j _ => rfl⟩
  | cons a l ih =>
    intro c hb hnd
    have hba : c.register_i + a < 4096 := hb a (by simp)
    have hanl : a ∉ l := (List.nodup_cons.mp hnd).1
    set c1 : Chip8 := { c with memory := upd c.memory (c.register_i + a) (c.registers a) }
      with hc1
    have hstep : writeMem c (c.register_i + a) (c.registers a) = .ok c1 := by
      simp [writeMem, hba, hc1]
    obtain ⟨c', hloop, hri, hregs, hpc, hmem, hframe⟩ :=
      ih c1 (fun i hi => hb i (by simp [hi])) (List.nodup_cons.mp hnd).2
    refine ⟨c', ?_, hri, hregs, hpc, ?_, ?_⟩
    · unfold loopM
      rw [hstep]
      exact hloop
    · intro i hi
      rcases List.mem_cons.mp hi with h | h
      · subst h
        have hne : ∀ i' ∈ l, c.register_i + i ≠ c1.register_i + i' := by
          intro i' hi' heq
          have : i = i' := Nat.add_left_cancel heq
          exact hanl (this ▸ hi')
        calc c'.memory (c.register_i + i) = c1.memory (c.register_i + i) :=
              hframe _ hne
          _ = c.registers i := by simp [hc1, upd]
      · have := hmem i h
        simpa [hc1, upd] using this
    · intro j hj
      have hj1 : ∀ i ∈ l, j ≠ c1.register_i + i := fun i hi => hj i (by simp [hi])
      have hja : j ≠ c.register_i + a := hj a (by simp)
      calc c'.memory j = c1.memory j := hframe j hj1
        _ = c.memory j := by simp [hc1, upd, hja]

/-- Characterisation of the Fx65 load loop: the loop succeeds, memory and
`register_i` are untouched, each targeted register receives the
corresponding memory cell, and every other register is unchanged. -/
theorem loadLoop_props :
    ∀ (l : List Nat) (c : Chip8),
      (∀ i ∈ l, c.register_i + i < 4096) → l.Nodup →
      ∃ c', loopM (fun c i =>
          match readMem c (c.register_i + i) with
          | .ok v => .ok { c with registers := upd c.registers i v }
          | .error e => .error e) c l = .ok c' ∧
        c'.register_i = c.register_i ∧ c'.memory = c.memory ∧
        c'.pc = c.pc ∧
        (∀ i ∈ l, c'.registers i = c.memory (c.register_i + i)) ∧
        (∀ j, j ∉ l → c'.registers j = c.registers j) := by
  intro l
  induction l with
  | nil =>
    intro c _ _
    exact ⟨c, rfl, rfl, rfl, rfl, by simp, fun j _ => rfl⟩
  | cons a l ih =>
    intro c hb hnd
    have hba : c.register_i + a < 4096 := hb a (by simp)
    have hanl : a ∉ l := (List.nodup_cons.mp hnd).1
    set c1 : Chip8 :=
        { c with registers := upd c.registers a (c.memory (c.register_i + a)) }
      with hc1
    have hstep : readMem c (c.register_i + a) = .ok (c.memory (c.register_i + a)) := by
      simp [readMem, hba]
    obtain ⟨c', hloop, hri, hmem, hpc, hregs, hframe⟩ :=
      ih c1 (fun i hi => hb i (by simp [hi])) (List.nodup_cons.mp hnd).2
    refine ⟨c', ?_, hri, hmem, hpc, ?_, ?_⟩
    · unfold loopM
      rw [hstep]
      exact hloop
    · intro i hi
      rcases List.mem_cons.mp hi with h | h
      · subst h
        calc c'.registers i = c1.registers i := hframe i hanl
          _ = c.memory (c.register_i + i) := by simp [hc1, upd]
      · have := hregs i h
        simpa [hc1] using this
    · intro j hj
      have hjl : j ∉ l := fun hmem' => hj (List.mem_cons.mpr (Or.inr hmem'))
      have hja : j ≠ a := fun heq => hj (List.mem_cons.mpr (Or.inl heq))
      calc c'.registers j = c1.registers j := hframe j hjl
        _ = c.registers j := by simp [hc1, upd, hja]

/-- C8: `LD [I], Vx` copies exactly registers `V0` through `Vx` inclusive
into memory at `register_i .. register_i + x`, touching no other memory
cell and leaving `register_i` (and the register file) unchanged; and
`LD Vx, [I]` copies the same range from memory into `V0` through `Vx`,
touching no other register and leaving `register_i` (and memory)
unchanged. -/
theorem c8_block_transfer (c : Chip8) (x : Nat) (_hx : x < 16)
    (h : c.register_i + x < 4096) :
    (∃ c', execFx55 c x = .ok c' ∧
        c'.register_i = c.register_i ∧ c'.registers = c.registers ∧
        (∀ i, i ≤ x → c'.memory (c.register_i + i) = c.registers i) ∧
        (∀ j, j < c.register_i ∨ c.register_i + x < j → c'.memory j = c.memory j)) ∧
    (∃ c', execFx65 c x = .ok c' ∧
        c'.register_i = c.register_i ∧ c'.memory = c.memory ∧
        (∀ i, i ≤ x → c'.registers i = c.memory (c.register_i + i)) ∧
        (∀ j, x < j → c'.registers j = c.registers j)) := by
  have hbounds : ∀ i ∈ List.range (x + 1), c.register_i + i < 4096 := by
    intro i hi
    have : i ≤ x := Nat.lt_succ_iff.mp (List.mem_range.mp hi)
    omega
  constructor
  · obtain ⟨c', hloop, hri, hregs, _, hmem, hframe⟩ :=
      storeLoop_props (List.range (x + 1)) c hbounds (List.nodup_range _)
    refine ⟨c', hloop, hri, hregs, ?_, ?_⟩
    · intro i hi
      exact hmem i (List.mem_range.mpr (Nat.lt_succ_iff.mpr hi))
    · intro j hj
      refine hframe j ?_
      intro i hi heq
      have : i ≤ x := Nat.lt_succ_iff.mp (List.mem_range.mp hi)
      omega
  · obtain ⟨c', hloop, hri, hmem, _, hregs, hframe⟩ :=
      loadLoop_props (List.range (x + 1)) c hbounds (List.nodup_range _)
    refine ⟨c', hloop, hri, hmem, ?_, ?_⟩
    · intro i hi
      exact hregs i (List.mem_range.mpr (Nat.lt_succ_iff.mpr hi))
    · intro j hj
      refine hframe j ?_
      intro hmem'
      have : j ≤ x := Nat.lt_succ_iff.mp (List.mem_range.mp hmem')
      omega

/-- Closed witness for `c8_block_transfer` at `x = 2` on `c8_wchip`
(`I = 0x300`). -/
theorem c8_block_transfer_witness :
    (2 : Nat) < 16 ∧ c8_wchip.register_i + 2 < 4096 ∧
    ((∃ c', execFx55 c8_wchip 2 = .ok c' ∧
        c'.register_i = c8_wchip.register_i ∧ c'.registers = c8_wchip.registers ∧
        (∀ i, i ≤ 2 → c'.memory (c8_wchip.register_i + i) = c8_wchip.registers i) ∧
        (∀ j, j < c8_wchip.register_i ∨ c8_wchip.register_i + 2 < j →
          c'.memory j = c8_wchip.memory j)) ∧
      (∃ c', execFx65 c8_wchip 2 = .ok c' ∧
        c'.register_i = c8_wchip.register_i ∧ c'.memory = c8_wchip.memory ∧
        (∀ i, i ≤ 2 → c'.registers i = c8_wchip.memory (c8_wchip.register_i + i)) ∧
        (∀ j, 2 < j → c'.registers j = c8_wchip.registers j))) :=
  ⟨by decide, by decide, c8_block_transfer c8_wchip 2 (by decide) (by decide)⟩

/-- A `loopM` whose body preserves `sp` preserves `sp`. -/
theorem loopM_sp {β : Type} (f : Chip8 → β → Except Fault Chip8)
    (hf : ∀ c b c', f c b = .ok c' → c'.sp = c.sp) :
    ∀ (l : List β) (c c' : Chip8), loopM f c l = .ok c' → c'.sp = c.sp := by
  intro l
  induction l with
  | nil =>
    intro c c' h
    unfold loopM at h
    cases h
    rfl
  | cons b l ih =>
    intro c c' h
    unfold loopM at h
    cases hfb : f c b with
    | ok c1 =>
      rw [hfb] at h
      exact (ih c1 c' h).trans (hf c b c1 hfb)
    | error e =>
      rw [hfb] at h
      exact Except.noConfusion h

theorem writeMem_sp (c : Chip8) (i v : Nat) (c' : Chip8)
    (h : writeMem c i v = .ok c') : c'.sp = c.sp := by
  unfold writeMem at h
  split at h
  · cases h; rfl
  · exact Except.noConfusion h

theorem drawPixel_sp (c : Chip8) (sl sx sy ln col : Nat) :
    (drawPixel c sl sx sy ln col).sp = c.sp := by
  unfold drawPixel
  dsimp only
  split <;> split <;> rfl

theorem foldl_drawPixel_sp (sl sx sy ln : Nat) :
    ∀ (l : List Nat) (c : Chip8),
      (List.foldl (fun c col => drawPixel c sl sx sy ln col) c l).sp = c.sp := by
  intro l
  induction l with
  | nil => intro c; rfl
  | cons a l ih =>
    intro c
    simpa [List.foldl_cons, drawPixel_sp] using
      (ih (drawPixel c sl sx sy ln a)).trans (drawPixel_sp c sl sx sy ln a)

theorem execDRW_sp (c : Chip8) (x y n : Nat) (c' : Chip8)
    (h : execDRW c x y n = .ok c') : c'.sp = c.sp := by
  unfold execDRW at h
  refine loopM_sp _ ?_ _ c c' h
  intro c0 line c1 hb
  split at hb
  · exact Except.noConfusion hb
  · split at hb
    · exact Except.noConfusion hb
    · cases hb
      exact foldl_drawPixel_sp _ _ _ _ _ _

theorem exec8_sp (c : Chip8) (x y k : Nat) (c' : Chip8)
    (h : exec8 c x y k = .ok c') : c'.sp = c.sp := by
  unfold exec8 at h
  split at h <;> · cases h; rfl

theorem execE_sp (c : Chip8) (x kk : Nat) (c' : Chip8)
    (h : execE c x kk = .ok c') : c'.sp = c.sp := by
  unfold execE at h
  split at h <;>
    first
    | (split at h
       · cases h
         split <;> rfl
       · exact Except.noConfusion h)
    | (cases h; rfl)

theorem execFx55_sp (c : Chip8) (x : Nat) (c' : Chip8)
    (h : execFx55 c x = .ok c') : c'.sp = c.sp := by
  unfold execFx55 at h
  exact loopM_sp _ (fun c0 i c1 hb => writeMem_sp c0 _ _ c1 hb) _ c c' h

theorem execFx65_sp (c : Chip8) (x : Nat) (c' : Chip8)
    (h : execFx65 c x = .ok c') : c'.sp = c.sp := by
  unfold execFx65 at h
  refine loopM_sp _ ?_ _ c c' h
  intro c0 i c1 hb
  split at hb
  · cases hb; rfl
  · exact Except.noConfusion hb

theorem execF_sp (c : Chip8) (x kk : Nat) (c' : Chip8)
    (h : execF c x kk = .ok c') : c'.sp = c.sp := by
  unfold execF at h
  split at h
  · cases h; rfl
  · cases h; rfl
  · cases h; rfl
  · cases h; rfl
  · split at h
    · exact Except.noConfusion h
    · cases h; rfl
  · split at h
    · exact Except.noConfusion h
    · cases h; rfl
  · -- BCD: three chained writeMem calls
    split at h
    · exact Except.noConfusion h
    · rename_i c1 h1
      split at h
      · exact Except.noConfusion h
      · rename_i c2 h2
        have s1 : c1.sp = c.sp := writeMem_sp _ _ _ _ h1
        have s2 : c2.sp = c1.sp := writeMem_sp _ _ _ _ h2
        have s3 : c'.sp = c2.sp := writeMem_sp _ _ _ _ h
        omega
  · exact execFx55_sp c x c' h
  · exact execFx65_sp c x c' h
  · cases h; rfl

/-- Successful `RET` leaves `sp` at most 14 (it required `sp < 16` and a
nonzero `sp`, then decremented). -/
theorem execRET_sp (c : Chip8) (c' : Chip8) (h : execRET c = .ok c') :
    c'.sp ≤ 15 := by
  unfold execRET at h
  split at h
  · split at h
    · exact Except.noConfusion h
    · cases h
      rename_i h16 h0
      show c.sp - 1 ≤ 15
      omega
  · exact Except.noConfusion h

/-- Successful `CALL` leaves `sp` at most 15 (the stack write required the
incremented `sp` to be below 16). -/
theorem execCALL_sp (c : Chip8) (nnn : Nat) (c' : Chip8)
    (h : execCALL c nnn = .ok c') : c'.sp ≤ 15 := by
  unfold execCALL at h
  split at h
  · exact Except.noConfusion h
  · split at h
    · cases h
      rename_i h0 h16
      show c.sp + 1 ≤ 15
      omega
    · exact Except.noConfusion h

theorem execOpcode_sp (c : Chip8) (b1 b2 r : Nat) (hsp : c.sp ≤ 15) (c' : Chip8)
    (h : execOpcode c b1 b2 r = .ok c') : c'.sp ≤ 15 := by
  simp only [execOpcode] at h
  split at h
  · -- family 0x0
    split at h
    · cases h
      exact hsp
    · split at h
      · exact execRET_sp c c' h
      · cases h
        exact hsp
  · cases h
    exact hsp
  · exact execCALL_sp c _ c' h
  · injection h with h
    split at h <;> (subst h; exact hsp)
  · injection h with h
    split at h <;> (subst h; exact hsp)
  · injection h with h
    split at h <;> (subst h; exact hsp)
  · cases h
    exact hsp
  · cases h
    exact hsp
  · exact (exec8_sp c _ _ _ c' h) ▸ hsp
  · injection h with h
    split at h <;> (subst h; exact hsp)
  · cases h
    exact hsp
  · cases h
    exact hsp
  · cases h
    exact hsp
  · exact (execDRW_sp c _ _ _ c' h) ▸ hsp
  · exact (execE_sp c _ _ c' h) ▸ hsp
  · exact (execF_sp c _ _ c' h) ▸ hsp
  · cases h
    exact hsp

/-- C7: `CALL` at `sp = 15` (fifteen pushes deep) faults on the stack
write, `RET` at `sp = 0` (nothing pushed) faults on the `sp -= 1`
underflow — in neither case is `sp` clamped or wrapped into a successful
state — and every non-faulting cycle keeps `sp ≤ 15`. -/
theorem c7_stack_discipline :
    (∀ (c : Chip8) (nnn : Nat), c.sp = 15 →
      execCALL c nnn = .error Fault.indexOutOfBounds) ∧
    (∀ c : Chip8, c.sp = 0 → execRET c = .error Fault.arithOverflow) ∧
    (∀ (c : Chip8) (r : Nat) (c' : Chip8), c.sp ≤ 15 →
      run_next_cpu_cycle c r = .ok c' → c'.sp ≤ 15) := by
  refine ⟨?_, ?_, ?_⟩
  · intro c nnn h
    unfold execCALL
    rw [h]
    norm_num
  · intro c h
    unfold execRET
    rw [h]
    norm_num
  · intro c r c' hsp hrun
    unfold run_next_cpu_cycle at hrun
    split at hrun
    · exact Except.noConfusion hrun
    · split at hrun
      · exact Except.noConfusion hrun
      · exact execOpcode_sp { c with pc := c.pc + 2 } _ _ r hsp c' hrun

/-- Closed witness for `c7_stack_discipline`: `CALL` from `sp = 15` and
`RET` from `sp = 0` fault on the baseline state, and a successful cycle
from the baseline state (opcode 0x0000, a SYS no-op) keeps `sp ≤ 15`. -/
theorem c7_stack_discipline_witness :
    ({ chipBase with sp := 15 } : Chip8).sp = 15 ∧
    execCALL { chipBase with sp := 15 } 0x300 = .error Fault.indexOutOfBounds ∧
    chipBase.sp = 0 ∧
    execRET chipBase = .error Fault.arithOverflow ∧
    c7_wchip.sp ≤ 15 ∧
    run_next_cpu_cycle c7_wchip 0 = .ok { c7_wchip with pc := 0x202 } ∧
    ({ c7_wchip with pc := 0x202 } : Chip8).sp ≤ 15 :=
  ⟨rfl, c7_stack_discipline.1 { chipBase with sp := 15 } 0x300 rfl,
   rfl, c7_stack_discipline.2.1 chipBase rfl,
   by decide, rfl,
   c7_stack_discipline.2.2 c7_wchip 0 { c7_wchip with pc := 0x202 } (by decide) rfl⟩

